import Mathlib

/-!
Shallow embedding of the asset-transfer chaincode variants of this repository:

* `AssetTransfer` — the attribute-based access-control contract that appears
  twice, syntactically identical, in the unnamed source file (the TypeScript
  class AssetTransferContract and the JavaScript class AssetContract); one
  embedding covers both copies.
* `EventsTs` — asset-transfer-events/chaincode-typescript/src/asset-contract.ts.
* `EventsGo` — asset-transfer-events/chaincode-go/asset-contract.go.

The host ledger API (getState, putState, deleteState, range scan, private
data, events) is modeled as explicit state passing over association lists;
thrown JavaScript errors, returned Go errors and Go runtime panics are all
modeled as `Except` error outcomes.  Byte payloads are represented by their
JSON-decode outcome (see `StoredVal`).
-/

/-- Error outcomes of a chaincode invocation, covering the error taxonomy of
the contracts plus the JavaScript and Go runtime failures the sources can hit. -/
inductive Err where
  | notFound (id : String)
  | alreadyExists (id : String)
  | unauthorized
  | identityError
  | typeError (msg : String)
  | parseError
  | nilMapPanic
deriving Repr, DecidableEq

/-- Value of the Owner field as it lives in a JavaScript object: a plain
string, a pending Promise (the un-awaited result of the async identity lookup,
carrying the getID result it was created from), or the empty object that
JSON.stringify turns a pending Promise into. -/
inductive JVal where
  | str (s : String)
  | promise (idB64 : Option String)
  | emptyObj
deriving Repr, DecidableEq

/-- An asset-shaped JSON object with the fields built by every variant of
CreateAsset. -/
structure AssetRec where
  ID : String
  Color : String
  Size : Int
  Owner : JVal
  AppraisedValue : Int
deriving Repr, DecidableEq

/-- Byte payloads are represented by their JSON-decode outcome: `asset r`
stands for bytes that decode to the asset-shaped object `r`; `junk s` stands
for bytes (with utf8 text `s`) on which JSON decoding fails. -/
inductive StoredVal where
  | asset (r : AssetRec)
  | junk (s : String)
deriving Repr, DecidableEq

/-- JSON.stringify collapses a pending Promise to the empty object; plain
strings survive unchanged. -/
def JVal.stringify : JVal → JVal
  | .str s => .str s
  | .promise _ => .emptyObj
  | .emptyObj => .emptyObj

/-- The record actually persisted by putState: the in-memory object after a
JSON.stringify round trip (only the Owner field can change shape). -/
def stringifyRec (r : AssetRec) : AssetRec :=
  { r with Owner := r.Owner.stringify }

/-- True for a zero-length byte payload.  Only the empty junk payload is
empty: the serialization of any JSON value is non-empty. -/
def StoredVal.isEmptyBytes : StoredVal → Bool
  | .junk s => s.isEmpty
  | .asset _ => false

/-- JSON.parse (and, shape-wise, json.Unmarshal) of stored bytes. -/
def jsParse : StoredVal → Except Err AssetRec
  | .asset r => .ok r
  | .junk _ => .error .parseError

/-- Association-list lookup, the get of the world state and of the private
collections. -/
def lookupKV {κ α : Type} [DecidableEq κ] : List (κ × α) → κ → Option α
  | [], _ => none
  | (k, v) :: rest, key => if k = key then some v else lookupKV rest key

/-- Association-list overwrite-or-append, the put of the world state and of
the private collections. -/
def putKV {κ α : Type} [DecidableEq κ] : List (κ × α) → κ → α → List (κ × α)
  | [], key, v => [(key, v)]
  | (k, w) :: rest, key, v =>
      if k = key then (key, v) :: rest else (k, w) :: putKV rest key v

/-- Association-list removal, the delete of the world state and of the private
collections. -/
def delKV {κ α : Type} [DecidableEq κ] : List (κ × α) → κ → List (κ × α)
  | [], _ => []
  | (k, w) :: rest, key =>
      if k = key then delKV rest key else (k, w) :: delKV rest key

/-- Ledger-visible state threaded through every operation: the public world
state, the private-data collections keyed by collection name and asset key,
and the events set on the transaction. -/
structure ChainState where
  world : List (String × StoredVal)
  priv : List ((String × String) × StoredVal)
  events : List (String × StoredVal)
deriving Repr, DecidableEq

/-- Per-invocation context supplied by the chaincode runtime: the result of
ClientIdentity.getID (base64 text, or null), the boolean result of
assertAttributeValue on abac.creator, the client and peer MSP ids, and the
asset_properties entry of the transient map when present. -/
structure Ctx where
  idB64 : Option String
  hasAbacCreator : Bool
  clientMSP : String
  peerMSP : String
  transientProps : Option StoredVal
deriving Repr, DecidableEq

/-- Value of one base64 alphabet character, as used by the JS atob builtin.
All inputs appearing in this development are valid base64; characters outside
the alphabet map to 0 here. -/
def b64Val (c : Char) : Nat :=
  if 'A' ≤ c ∧ c ≤ 'Z' then c.toNat - 'A'.toNat
  else if 'a' ≤ c ∧ c ≤ 'z' then c.toNat - 'a'.toNat + 26
  else if '0' ≤ c ∧ c ≤ '9' then c.toNat - '0'.toNat + 52
  else if c = '+' then 62
  else if c = '/' then 63
  else 0

/-- Decode a list of 6-bit values into bytes, four values at a time; a
trailing group of three or two values yields two bytes or one byte. -/
def b64DecodeVals : List Nat → List Nat
  | a :: b :: c :: d :: rest =>
      (a * 4 + b / 16) :: (b % 16 * 16 + c / 4) :: (c % 4 * 64 + d) :: b64DecodeVals rest
  | [a, b, c] => [a * 4 + b / 16, b % 16 * 16 + c / 4]
  | [a, b] => [a * 4 + b / 16]
  | [_] => []
  | [] => []

/-- The JS atob builtin: base64 text to a byte string, each output character
holding one decoded byte. -/
def atob (s : String) : String :=
  String.mk ((b64DecodeVals ((s.data.filter (fun c => c ≠ '=')).map b64Val)).map Char.ofNat)

/-- Scan result entry value: a decoded record, or the raw string fallback used
when decoding the stored bytes fails. -/
inductive RecVal where
  | parsed (r : AssetRec)
  | raw (s : String)
deriving Repr, DecidableEq

/-- One entry of the GetAllAssets result: the state key and its record. -/
structure ScanEntry where
  Key : String
  Record : RecVal
deriving Repr, DecidableEq

/-- Per-entry decoding inside the scan loop: JSON.parse under try/catch with
the raw utf8 string as the fallback value. -/
def scanRecord : StoredVal → RecVal
  | .asset r => .parsed r
  | .junk s => .raw s

namespace AssetTransfer

/-- True when getState(id) yields no bytes: the key is absent, or the stored
payload is empty.  This is the JS test on assetJSON being falsy or of length
zero. -/
def stateAbsent (w : List (String × StoredVal)) (id : String) : Bool :=
  match lookupKV w id with
  | none => true
  | some v => v.isEmptyBytes

/-- GetSubmittingClientIdentity: ClientIdentity.getID, a null check, then the
atob base64 decode of the identity. -/
def GetSubmittingClientIdentity (cx : Ctx) : Except Err String :=
  match cx.idB64 with
  | none => .error .identityError
  | some b => .ok (atob b)

/-- AssetExists: getState and buffer truthiness; it never fails against the
in-memory store. -/
def AssetExists (st : ChainState) (id : String) : Except Err Bool × ChainState :=
  (.ok (!stateAbsent st.world id), st)

/-- ReadAsset: getState, a does-not-exist error when no bytes are stored,
otherwise the raw bytes (the source returns the string without parsing it). -/
def ReadAsset (st : ChainState) (id : String) : Except Err StoredVal × ChainState :=
  match lookupKV st.world id with
  | none => (.error (.notFound id), st)
  | some v => if v.isEmptyBytes then (.error (.notFound id), st) else (.ok v, st)

/-- CreateAsset: abac.creator attribute check, existence check, then putState
of the record.  The source calls the async GetSubmittingClientIdentity without
await, so the Owner field of the in-memory object is a pending Promise and the
persisted Owner is the empty object it serializes to. -/
def CreateAsset (cx : Ctx) (st : ChainState) (id color : String)
    (size appraisedValue : Int) : Except Err Unit × ChainState :=
  if !cx.hasAbacCreator then
    (.error .unauthorized, st)
  else if !stateAbsent st.world id then
    (.error (.alreadyExists id), st)
  else
    let clientID : JVal := .promise cx.idB64
    let asset : AssetRec := ⟨id, color, size, clientID, appraisedValue⟩
    (.ok (), { st with world := putKV st.world id (.asset (stringifyRec asset)) })

/-- UpdateAsset: existence check, read, JSON.parse, then the ownership test
evaluates a getOwner method call on the parsed plain object.  No such method
exists on a JSON.parse result, so the call raises a TypeError before any
comparison or write; the rebuild and putState below it in the source are
unreachable. -/
def UpdateAsset (cx : Ctx) (st : ChainState) (id color : String)
    (size appraisedValue : Int) : Except Err Unit × ChainState :=
  if stateAbsent st.world id then
    (.error (.notFound id), st)
  else
    let _clientID : JVal := .promise cx.idB64
    match (ReadAsset st id).1 with
    | .error e => (.error e, st)
    | .ok bytes =>
      match jsParse bytes with
      | .error e => (.error e, st)
      | .ok _asset => (.error (.typeError "asset.getOwner is not a function"), st)

/-- DeleteAsset: existence check, read, JSON.parse, then the same ownership
test as UpdateAsset, which raises a TypeError before any comparison; the
deleteState below it in the source is unreachable. -/
def DeleteAsset (cx : Ctx) (st : ChainState) (id : String) :
    Except Err Unit × ChainState :=
  if stateAbsent st.world id then
    (.error (.notFound id), st)
  else
    let _clientID : JVal := .promise cx.idB64
    match (ReadAsset st id).1 with
    | .error e => (.error e, st)
    | .ok bytes =>
      match jsParse bytes with
      | .error e => (.error e, st)
      | .ok _asset => (.error (.typeError "asset.getOwner is not a function"), st)

/-- TransferAsset: read, JSON.parse, then the ownership test, which raises a
TypeError on the missing getOwner method before any comparison; the owner
reassignment and putState below it in the source are unreachable. -/
def TransferAsset (cx : Ctx) (st : ChainState) (id newOwner : String) :
    Except Err Unit × ChainState :=
  match (ReadAsset st id).1 with
  | .error e => (.error e, st)
  | .ok bytes =>
    match jsParse bytes with
    | .error e => (.error e, st)
    | .ok _asset =>
      let _clientID : JVal := .promise cx.idB64
      (.error (.typeError "asset.getOwner is not a function"), st)

/-- GetAllAssets: open-ended range scan over the whole namespace, decoding
each value and falling back to the raw string when decoding fails; the loop
never aborts and nothing is written. -/
def GetAllAssets (st : ChainState) : Except Err (List ScanEntry) × ChainState :=
  (.ok (st.world.map (fun kv => ⟨kv.1, scanRecord kv.2⟩)), st)

end AssetTransfer

namespace EventsTs

/-- savePrivateData: when the client org equals the peer org and the transient
map carries an asset_properties entry, mirror it into the implicit collection
of the peer org; otherwise do nothing. -/
def savePrivateData (cx : Ctx) (st : ChainState) (assetKey : String) : ChainState :=
  if cx.clientMSP = cx.peerMSP then
    match cx.transientProps with
    | some props =>
        { st with priv := putKV st.priv ("_implicit_org_" ++ cx.peerMSP, assetKey) props }
    | none => st
  else st

/-- removePrivateData: when the client org equals the peer org and a non-empty
private entry exists, delete it. -/
def removePrivateData (cx : Ctx) (st : ChainState) (assetKey : String) : ChainState :=
  if cx.clientMSP = cx.peerMSP then
    match lookupKV st.priv ("_implicit_org_" ++ cx.peerMSP, assetKey) with
    | some v =>
        if v.isEmptyBytes then st
        else { st with priv := delKV st.priv ("_implicit_org_" ++ cx.peerMSP, assetKey) }
    | none => st
  else st

/-- readState: getState, a does-not-exist error on missing or empty bytes,
then JSON.parse of the payload. -/
def readState (st : ChainState) (id : String) : Except Err AssetRec :=
  match lookupKV st.world id with
  | none => .error (.notFound id)
  | some v =>
    if v.isEmptyBytes then .error (.notFound id)
    else jsParse v

/-- CreateAsset: build the record with the Owner taken from the caller-supplied
parameter (this variant has no attribute check and no existence check), mirror
private data, set the CreateAsset event, then putState. -/
def CreateAsset (cx : Ctx) (st : ChainState) (id color : String) (size : Int)
    (owner : String) (appraisedValue : Int) : Except Err Unit × ChainState :=
  let asset : AssetRec := ⟨id, color, size, .str owner, appraisedValue⟩
  let st1 := savePrivateData cx st id
  let bytes : StoredVal := .asset (stringifyRec asset)
  let st2 := { st1 with events := st1.events ++ [("CreateAsset", bytes)] }
  (.ok (), { st2 with world := putKV st2.world id bytes })

/-- TransferAsset: read, set the Owner field to newOwner, re-mirror private
data, set the TransferAsset event, then putState.  No ownership check appears
anywhere in this variant. -/
def TransferAsset (cx : Ctx) (st : ChainState) (id newOwner : String) :
    Except Err Unit × ChainState :=
  match readState st id with
  | .error e => (.error e, st)
  | .ok r =>
    let bytes : StoredVal := .asset (stringifyRec { r with Owner := .str newOwner })
    let st1 := savePrivateData cx st id
    let st2 := { st1 with events := st1.events ++ [("TransferAsset", bytes)] }
    (.ok (), { st2 with world := putKV st2.world id bytes })

/-- UpdateAsset: read, overwrite the four mutable fields, re-mirror private
data, set the UpdateAsset event, then putState.  No ownership check appears
anywhere in this variant. -/
def UpdateAsset (cx : Ctx) (st : ChainState) (id color : String) (size : Int)
    (owner : String) (appraisedValue : Int) : Except Err Unit × ChainState :=
  match readState st id with
  | .error e => (.error e, st)
  | .ok r =>
    let bytes : StoredVal :=
      .asset (stringifyRec { r with Color := color, Size := size,
                                    Owner := .str owner, AppraisedValue := appraisedValue })
    let st1 := savePrivateData cx st id
    let st2 := { st1 with events := st1.events ++ [("UpdateAsset", bytes)] }
    (.ok (), { st2 with world := putKV st2.world id bytes })

/-- DeleteAsset: read, remove the private entry, set the DeleteAsset event,
then deleteState.  No ownership check appears anywhere in this variant. -/
def DeleteAsset (cx : Ctx) (st : ChainState) (assetId : String) :
    Except Err Unit × ChainState :=
  match readState st assetId with
  | .error e => (.error e, st)
  | .ok r =>
    let bytes : StoredVal := .asset (stringifyRec r)
    let st1 := removePrivateData cx st assetId
    let st2 := { st1 with events := st1.events ++ [("DeleteAsset", bytes)] }
    (.ok (), { st2 with world := delKV st2.world assetId })

/-- Read result view: the record plus the asset_properties payload merged in
by addPrivateData; the merged payload is kept abstract as its bytes. -/
structure AssetView where
  base : AssetRec
  props : Option StoredVal
deriving Repr, DecidableEq

/-- addPrivateData: only for a caller of the peer org, fetch the private entry
and, when it is non-empty, JSON.parse it and attach the parsed value to the
record being returned; a payload that fails to parse throws. -/
def addPrivateData (cx : Ctx) (st : ChainState) (assetKey : String) (r : AssetRec) :
    Except Err AssetView :=
  if cx.clientMSP = cx.peerMSP then
    match lookupKV st.priv ("_implicit_org_" ++ cx.peerMSP, assetKey) with
    | some v =>
      if v.isEmptyBytes then .ok ⟨r, none⟩
      else match v with
        | .junk _ => .error .parseError
        | .asset a => .ok ⟨r, some (.asset a)⟩
    | none => .ok ⟨r, none⟩
  else .ok ⟨r, none⟩

/-- ReadAsset: readState, then addPrivateData keyed by the ID field of the
record; returns the merged view and performs no write. -/
def ReadAsset (cx : Ctx) (st : ChainState) (id : String) :
    Except Err AssetView × ChainState :=
  match readState st id with
  | .error e => (.error e, st)
  | .ok r =>
    match addPrivateData cx st r.ID r with
    | .error e => (.error e, st)
    | .ok view => (.ok view, st)

end EventsTs

namespace EventsGo

/-- The Go Asset struct, fields and field types reconstructed from their uses
in asset-contract.go; Owner is a Go string. -/
structure GoAsset where
  ID : String
  Color : String
  Size : Int
  Owner : String
  AppraisedValue : Int
deriving Repr, DecidableEq

/-- json.Marshal of the Go Asset struct. -/
def goMarshal (a : GoAsset) : StoredVal :=
  .asset ⟨a.ID, a.Color, a.Size, .str a.Owner, a.AppraisedValue⟩

/-- json.Unmarshal of bytes into the Asset struct: nil bytes and undecodable
bytes fail; an Owner field that is not a JSON string cannot populate the Go
string field and fails as well. -/
def goUnmarshalAsset : Option StoredVal → Except Err GoAsset
  | none => .error .parseError
  | some (.junk _) => .error .parseError
  | some (.asset r) =>
    match r.Owner with
    | .str s => .ok ⟨r.ID, r.Color, r.Size, s, r.AppraisedValue⟩
    | _ => .error .parseError

/-- AssetExists: GetState and a nil test.  The in-memory store never returns
an I/O error, so the error branch of the source is not taken. -/
def AssetExists (st : ChainState) (id : String) : Except Err Bool × ChainState :=
  (.ok (lookupKV st.world id).isSome, st)

/-- savePrivateData: mirror the transient asset_properties entry into the
implicit collection of the peer org when the client org equals the peer org. -/
def savePrivateData (cx : Ctx) (st : ChainState) (assetKey : String) : ChainState :=
  if cx.clientMSP = cx.peerMSP then
    match cx.transientProps with
    | some props =>
        { st with priv := putKV st.priv ("_implicit_org_" ++ cx.peerMSP, assetKey) props }
    | none => st
  else st

/-- CreateAsset.  The existence test is taken verbatim from the source, where
it is inverted: the branch on the negation of exists returns the
already-exists error, so the operation fails exactly when the id is free and
overwrites the stored record when the id exists.  Then private-data mirror,
CreateAsset event, putState. -/
def CreateAsset (cx : Ctx) (st : ChainState) (id color : String) (size : Int)
    (owner : String) (appraisedValue : Int) : Except Err Unit × ChainState :=
  if !(lookupKV st.world id).isSome then
    (.error (.alreadyExists id), st)
  else
    let asset : GoAsset := ⟨id, color, size, owner, appraisedValue⟩
    let st1 := savePrivateData cx st id
    let bytes := goMarshal asset
    let st2 := { st1 with events := st1.events ++ [("CreateAsset", bytes)] }
    (.ok (), { st2 with world := putKV st2.world id bytes })

/-- readState: GetState never errors against the in-memory store, so the
source branch carrying the does-not-exist message is unreachable; an absent
key yields nil bytes, and the json.Unmarshal of nil fails with a decode
error. -/
def readState (st : ChainState) (id : String) : Except Err GoAsset :=
  goUnmarshalAsset (lookupKV st.world id)

/-- addPrivateData: for a caller of the peer org the source assigns into a
map variable that is declared but never initialized, which panics at run time
before the fetched private payload is even inspected; for any other caller it
returns nil bytes with a nil error.  The panic is modeled as the nilMapPanic
error outcome. -/
def addPrivateData (cx : Ctx) (st : ChainState) (assetKey : String) (_a : GoAsset) :
    Except Err (Option StoredVal) :=
  if cx.clientMSP = cx.peerMSP then
    let _propertiesBuffer := lookupKV st.priv ("_implicit_org_" ++ cx.peerMSP, assetKey)
    .error .nilMapPanic
  else .ok none

/-- ReadAsset: readState, addPrivateData on the record, then json.Unmarshal of
the bytes addPrivateData returned into a fresh Asset value. -/
def ReadAsset (cx : Ctx) (st : ChainState) (id : String) :
    Except Err GoAsset × ChainState :=
  match readState st id with
  | .error e => (.error e, st)
  | .ok a =>
    match addPrivateData cx st a.ID a with
    | .error e => (.error e, st)
    | .ok obytes =>
      match goUnmarshalAsset obytes with
      | .error e => (.error e, st)
      | .ok a1 => (.ok a1, st)

end EventsGo

/-- The empty chain state. -/
def st0 : ChainState := ⟨[], [], []⟩

/-- Caller bob: base64 identity Ym9i (bob), carries abac.creator, member of
Org2MSP while the peer is Org1MSP. -/
def cxBob : Ctx := ⟨some "Ym9i", true, "Org2MSP", "Org1MSP", none⟩

/-- Caller alice: base64 identity YWxpY2U= (alice), carries abac.creator,
member of Org2MSP while the peer is Org1MSP. -/
def cxAlice : Ctx := ⟨some "YWxpY2U=", true, "Org2MSP", "Org1MSP", none⟩

/-- Caller of the peer org Org1MSP itself. -/
def cxOrg1 : Ctx := ⟨some "YWxpY2U=", true, "Org1MSP", "Org1MSP", none⟩

/-- Caller whose identity does not carry the abac.creator attribute. -/
def cxNoAttr : Ctx := ⟨none, false, "Org2MSP", "Org1MSP", none⟩

/-- State holding one asset a1 owned by alice. -/
def stOwned : ChainState := ⟨[("a1", .asset ⟨"a1", "red", 5, .str "alice", 100⟩)], [], []⟩

/-- State holding one asset g1 owned by alice, for the Go overwrite run. -/
def stG1 : ChainState := ⟨[("g1", .asset ⟨"g1", "red", 5, .str "alice", 100⟩)], [], []⟩

/-- State holding one asset h1 owned by alice, for the Go existence run. -/
def stH : ChainState := ⟨[("h1", .asset ⟨"h1", "red", 5, .str "alice", 100⟩)], [], []⟩

/-- State holding one asset ax owned by alice, for the transfer runs. -/
def stAx : ChainState := ⟨[("ax", .asset ⟨"ax", "gold", 2, .str "alice", 77⟩)], [], []⟩

/-- State holding an asset p1 together with a private-data entry for it in the
implicit collection of Org1MSP. -/
def stP : ChainState :=
  ⟨[("p1", .asset ⟨"p1", "red", 3, .str "alice", 9⟩)],
   [(("_implicit_org_Org1MSP", "p1"), .junk "private-blob")], []⟩

/-- C1: the Go events variant inverts its existence test, so CreateAsset on an
id that already exists succeeds and silently overwrites the stored record
instead of failing with AlreadyExists. -/
theorem createAsset_overwrite_bug :
    (EventsGo.CreateAsset cxBob stG1 "g1" "blue" 10 "bob" 200).1 = .ok () ∧
    lookupKV (EventsGo.CreateAsset cxBob stG1 "g1" "blue" 10 "bob" 200).2.world "g1"
      = some (.asset ⟨"g1", "blue", 10, .str "bob", 200⟩) ∧
    (StoredVal.asset ⟨"g1", "blue", 10, .str "bob", 200⟩)
      ≠ .asset ⟨"g1", "red", 5, .str "alice", 100⟩ := by
  refine ⟨rfl, rfl, by decide⟩

/-- C2: in the access-controlled contract the ownership test calls a method
that does not exist on the parsed record, so UpdateAsset, DeleteAsset and
TransferAsset by a non-owner (here bob, against an asset owned by alice) all
fail with a TypeError rather than Unauthorized, leaving the state unchanged;
and the events TS TransferAsset has no ownership check at all, so the same
non-owner transfer succeeds there and rewrites the record. -/
theorem update_delete_transfer_owner_check_bug :
    AssetTransfer.GetSubmittingClientIdentity cxBob = .ok "bob" ∧
    AssetTransfer.UpdateAsset cxBob stOwned "a1" "blue" 9 50
      = (.error (.typeError "asset.getOwner is not a function"), stOwned) ∧
    AssetTransfer.DeleteAsset cxBob stOwned "a1"
      = (.error (.typeError "asset.getOwner is not a function"), stOwned) ∧
    AssetTransfer.TransferAsset cxBob stOwned "a1" "bob"
      = (.error (.typeError "asset.getOwner is not a function"), stOwned) ∧
    (EventsTs.TransferAsset cxBob stOwned "a1" "bob").1 = .ok () ∧
    lookupKV (EventsTs.TransferAsset cxBob stOwned "a1" "bob").2.world "a1"
      = some (.asset ⟨"a1", "red", 5, .str "bob", 100⟩) := by
  exact ⟨rfl, rfl, rfl, rfl, rfl, rfl⟩

/-- C3: CreateAsset stores the un-awaited identity Promise as Owner, which
JSON.stringify serializes as the empty object, so the record read back carries
an empty object rather than the creator identity string bob, even though
color, size and appraised value do round-trip. -/
theorem createAsset_read_owner_bug :
    AssetTransfer.GetSubmittingClientIdentity cxBob = .ok "bob" ∧
    AssetTransfer.CreateAsset cxBob st0 "a1" "red" 5 100
      = (.ok (), ⟨[("a1", .asset ⟨"a1", "red", 5, .emptyObj, 100⟩)], [], []⟩) ∧
    (AssetTransfer.ReadAsset ⟨[("a1", .asset ⟨"a1", "red", 5, .emptyObj, 100⟩)], [], []⟩ "a1").1
      = .ok (.asset ⟨"a1", "red", 5, .emptyObj, 100⟩) ∧
    JVal.emptyObj ≠ .str "bob" := by
  exact ⟨rfl, rfl, rfl, by decide⟩

/-- C4 counterexample: the events TS CreateAsset performs no attribute check,
so a caller whose identity does not carry abac.creator succeeds and the record
is written, rather than failing with Unauthorized. -/
theorem eventsCreate_no_abac_check :
    cxNoAttr.hasAbacCreator = false ∧
    EventsTs.CreateAsset cxNoAttr st0 "a9" "red" 1 "owner1" 10
      = (.ok (), ⟨[("a9", .asset ⟨"a9", "red", 1, .str "owner1", 10⟩)], [],
          [("CreateAsset", .asset ⟨"a9", "red", 1, .str "owner1", 10⟩)]⟩) := by
  exact ⟨rfl, rfl⟩

/-- C4 (amended): in the access-controlled contract, every caller whose
identity does not carry abac.creator fails with Unauthorized and the state is
unchanged, whatever the id and the state; the event-emitting variants perform
no attribute check. -/
theorem createAsset_requires_abac (cx : Ctx) (st : ChainState) (id color : String)
    (size v : Int) (h : cx.hasAbacCreator = false) :
    AssetTransfer.CreateAsset cx st id color size v = (.error .unauthorized, st) := by
  simp [AssetTransfer.CreateAsset, h]

/-- C4 witness: the amended theorem applied to a concrete unauthorized caller
on the empty state. -/
theorem createAsset_requires_abac_witness :
    AssetTransfer.CreateAsset cxNoAttr st0 "z1" "red" 1 2 = (.error .unauthorized, st0) :=
  createAsset_requires_abac cxNoAttr st0 "z1" "red" 1 2 rfl

/-- C5: ReadAsset on an absent id.  The access-controlled contract and the
events TS variant fail with the does-not-exist error, but the Go events
variant falls through to the json.Unmarshal of nil bytes and fails with a
decode error instead of NotFound. -/
theorem readAsset_missing_error_kind :
    EventsGo.ReadAsset cxBob st0 "ghost" = (.error .parseError, st0) ∧
    (AssetTransfer.ReadAsset st0 "ghost").1 = .error (.notFound "ghost") ∧
    EventsTs.readState st0 "ghost" = .error (.notFound "ghost") := by
  exact ⟨rfl, rfl, rfl⟩

/-- C6: AssetExists does return false for a missing key without failing in
both variants, but in the Go events variant a successful CreateAsset requires
AssetExists to be true immediately before the call (the inverted existence
test), and CreateAsset on a fresh id fails with the already-exists error. -/
theorem assetExists_before_create_bug :
    (AssetTransfer.AssetExists st0 "h1").1 = .ok false ∧
    (EventsGo.AssetExists st0 "h1").1 = .ok false ∧
    (EventsGo.AssetExists stH "h1").1 = .ok true ∧
    (EventsGo.CreateAsset cxBob stH "h1" "green" 7 "carol" 70).1 = .ok () ∧
    (EventsGo.CreateAsset cxBob st0 "h2" "green" 7 "carol" 70).1
      = .error (.alreadyExists "h2") := by
  exact ⟨rfl, rfl, rfl, rfl, rfl⟩

/-- C7: in the access-controlled contract even the rightful owner alice cannot
transfer her asset (the ownership test raises a TypeError first), and in the
events TS variant the first transfer succeeds and the read-back shows the new
owner, but a second transfer by the original owner also succeeds, because no
ownership check exists: it never fails with Unauthorized. -/
theorem transfer_then_retransfer_bug :
    AssetTransfer.GetSubmittingClientIdentity cxAlice = .ok "alice" ∧
    AssetTransfer.TransferAsset cxAlice stAx "ax" "bob"
      = (.error (.typeError "asset.getOwner is not a function"), stAx) ∧
    (EventsTs.TransferAsset cxAlice stAx "ax" "bob").1 = .ok () ∧
    EventsTs.readState (EventsTs.TransferAsset cxAlice stAx "ax" "bob").2 "ax"
      = .ok ⟨"ax", "gold", 2, .str "bob", 77⟩ ∧
    (EventsTs.TransferAsset cxAlice
        (EventsTs.TransferAsset cxAlice stAx "ax" "bob").2 "ax" "carol").1 = .ok () := by
  exact ⟨rfl, rfl, rfl, rfl, rfl⟩

/-- C8: the Go events ReadAsset never returns a merged or a public view of an
asset that has a private-data entry: for a caller of the owning org the
private-data helper panics on the nil map, and for a caller of another org the
helper returns nil bytes, so the final unmarshal fails. -/
theorem readAsset_private_merge_bug :
    EventsGo.ReadAsset cxOrg1 stP "p1" = (.error .nilMapPanic, stP) ∧
    (EventsGo.ReadAsset cxBob stP "p1").1 = .error .parseError := by
  exact ⟨rfl, rfl⟩

/-- C9: GetAllAssets never fails, visits every key of the world state in scan
order, and a record whose stored bytes do not decode appears with its raw
string payload rather than aborting the listing. -/
theorem getAllAssets_total_complete (st : ChainState) :
    ∃ l, (AssetTransfer.GetAllAssets st).1 = .ok l ∧
      l.map ScanEntry.Key = st.world.map Prod.fst ∧
      ∀ k s, (k, StoredVal.junk s) ∈ st.world → ScanEntry.mk k (RecVal.raw s) ∈ l := by
  have h1 : (AssetTransfer.GetAllAssets st).1
      = .ok (st.world.map (fun kv => { Key := kv.1, Record := scanRecord kv.2 })) := rfl
  refine ⟨_, h1, ?_, ?_⟩
  · rw [List.map_map]
    rfl
  · intro k s hmem
    exact List.mem_map.mpr ⟨(k, StoredVal.junk s), hmem, rfl⟩

/-- C9 witness: the scan theorem applied to a concrete two-entry state holding
one well-formed record and one undecodable payload. -/
theorem getAllAssets_total_complete_witness :
    ∃ l, (AssetTransfer.GetAllAssets
        ⟨[("k1", StoredVal.junk "oops"),
          ("k2", .asset ⟨"k2", "red", 1, .str "alice", 2⟩)], [], []⟩).1 = .ok l ∧
      l.map ScanEntry.Key = ["k1", "k2"] ∧
      ScanEntry.mk "k1" (RecVal.raw "oops") ∈ l := by
  obtain ⟨l, h1, h2, h3⟩ := getAllAssets_total_complete
    ⟨[("k1", StoredVal.junk "oops"),
      ("k2", .asset ⟨"k2", "red", 1, .str "alice", 2⟩)], [], []⟩
  refine ⟨l, h1, ?_, h3 "k1" "oops" (by simp)⟩
  rw [h2]
  rfl

/-- C10: the read-only operations ReadAsset, AssetExists and GetAllAssets of
the access-controlled contract and the events TS ReadAsset return the chain
state unchanged, whether they succeed or fail. -/
theorem readonly_ops_frame (cx : Ctx) (st : ChainState) (id : String) :
    (AssetTransfer.ReadAsset st id).2 = st ∧
    (AssetTransfer.AssetExists st id).2 = st ∧
    (AssetTransfer.GetAllAssets st).2 = st ∧
    (EventsTs.ReadAsset cx st id).2 = st := by
  refine ⟨?_, rfl, rfl, ?_⟩
  · unfold AssetTransfer.ReadAsset
    cases lookupKV st.world id with
    | none => rfl
    | some v =>
      cases h : v.isEmptyBytes <;> simp [h]
  · unfold EventsTs.ReadAsset
    cases EventsTs.readState st id with
    | error e => rfl
    | ok r =>
      cases h : EventsTs.addPrivateData cx st r.ID r with
      | error e => simp [h]
      | ok view => simp [h]

/-- C10 witness: the frame theorem applied to a concrete caller, state and id. -/
theorem readonly_ops_frame_witness :
    (AssetTransfer.ReadAsset stOwned "a1").2 = stOwned ∧
    (AssetTransfer.AssetExists stOwned "a1").2 = stOwned ∧
    (AssetTransfer.GetAllAssets stOwned).2 = stOwned ∧
    (EventsTs.ReadAsset cxBob stOwned "a1").2 = stOwned :=
  readonly_ops_frame cxBob stOwned "a1"
